import Mathlib

/-!
Shallow embedding of `src/create_preview.py` (dataforge/create-video-preview).

The algorithmic core of the program is:
* `get_video_duration` (lines 95–113) — parses `Duration: HH:MM:SS.fff` from
  ffmpeg output and returns `int(hours*3600 + minutes*60 + seconds)`;
* `get_clip_length` (lines 173–186) / `get_preview_percentage` (lines 188–211)
  — prompt loops that accept a clip length only when `1 <= clip_length <= 60`
  and a percentage only when `1 <= percentage <= 50`, returning
  `percentage / 100` as the preview fraction;
* `main` (line 303) — computes
  `preview_duration = round(duration * preview_percentage)`;
* `create_preview_clips` (lines 213–244) — computes
  `number_of_clips = math.ceil(preview_duration / clip_length)` and, for `i` in
  `range(number_of_clips)`, extracts a clip of `clip_length` seconds starting
  at `(duration / number_of_clips) * i`, aborting on the first extraction
  failure with an error carrying the failing index;
* `create_concat_file` (lines 246–252) / `combine_clips` (lines 254–269) —
  hand the ordered clip list to the concatenation step.

Real-valued quantities are modelled with `ℚ`; Python's `round` (banker's
rounding, round half to even) and `int` (truncation toward zero) are modelled
explicitly.  The ffmpeg subprocess calls are modelled as collaborator
functions returning `Except`, and the assembly pipeline records a trace of
collaborator calls, so that claims about which collaborators are invoked, and
in what order, are statable.
-/

namespace CreatePreview

/-- Python's built-in `round` on a rational: round half to even (banker's
rounding), as used by `round(duration * (percentage / 100))` at lines 204
and 303 of the source. -/
def pyround (q : ℚ) : ℤ :=
  if q - (⌊q⌋ : ℚ) < 1/2 then ⌊q⌋
  else if 1/2 < q - (⌊q⌋ : ℚ) then ⌊q⌋ + 1
  else if ⌊q⌋ % 2 = 0 then ⌊q⌋ else ⌊q⌋ + 1

/-- Python's `int()` applied to a real value: truncation toward zero. -/
def pytrunc (q : ℚ) : ℤ := if 0 ≤ q then ⌊q⌋ else ⌈q⌉

/-- The core of `get_video_duration`, lines 104–109: after the regex
match on `Duration: (\d+):(\d+):(\d+(?:\.\d+)?)` has produced integer
`hours` and `minutes` and a (possibly fractional, non-negative) `seconds`,
the function returns `int(hours * 3600 + minutes * 60 + seconds)`. -/
def get_video_duration (hours minutes : ℕ) (seconds : ℚ) : ℤ :=
  pytrunc ((hours : ℚ) * 3600 + (minutes : ℚ) * 60 + seconds)

/-- Acceptance condition of the `get_clip_length` prompt loop, line 181:
an entered integer is accepted iff `1 <= clip_length <= 60`; any other
entry is rejected (the loop re-prompts and the value never reaches the
planner). -/
def clip_length_ok (clip_length : ℤ) : Bool :=
  decide (1 ≤ clip_length) && decide (clip_length ≤ 60)

/-- Acceptance condition of the `get_preview_percentage` prompt loop, line
203: an entered percentage is accepted iff `1 <= percentage <= 50`; on
acceptance the function returns `percentage / 100` as the preview
fraction (line 207). -/
def percentage_ok (percentage : ℚ) : Bool :=
  decide (1 ≤ percentage) && decide (percentage ≤ 50)

/-- Line 303 of `main`: `preview_duration = round(duration * preview_percentage)`
where `preview_percentage` is the fraction returned by
`get_preview_percentage`. -/
def preview_duration (duration : ℚ) (fraction : ℚ) : ℤ :=
  pyround (duration * fraction)

/-- Line 215 of `create_preview_clips`:
`number_of_clips = math.ceil(preview_duration / clip_length)`
(Python 3 true division followed by `math.ceil`). -/
def number_of_clips (pd : ℤ) (clip_length : ℤ) : ℤ :=
  ⌈(pd : ℚ) / (clip_length : ℚ)⌉

/-- Line 221 of `create_preview_clips`:
`start_time = (duration / number_of_clips) * i`. -/
def start_time (duration : ℚ) (n : ℤ) (i : ℕ) : ℚ :=
  duration / (n : ℚ) * (i : ℚ)

/-- One planned clip: its index, its start offset in seconds, and its
requested length in seconds (the `-ss` and `-t` arguments of the extraction
command built at lines 224–235). -/
structure ClipEntry where
  index : ℕ
  start_offset : ℚ
  length_seconds : ℤ
deriving DecidableEq, Repr

/-- The sampling plan implicit in `create_preview_clips` (lines 213–235),
composed with `main`'s computation of `preview_duration` (line 303): for `i`
in `range(number_of_clips)`, one clip of `clip_length` seconds starting at
`(duration / number_of_clips) * i`. -/
def plan (duration fraction : ℚ) (clip_length : ℤ) : List ClipEntry :=
  (List.range (number_of_clips (preview_duration duration fraction) clip_length).toNat).map
    (fun i =>
      ⟨i, start_time duration (number_of_clips (preview_duration duration fraction) clip_length) i,
        clip_length⟩)

/-! ### Evaluation helpers

`Nat.gcd` blocks kernel reduction of `ℚ` arithmetic, so concrete values of
`pyround`, `number_of_clips` and `plan` are computed through the following
characterisation lemmas instead of `decide`. -/

theorem floor_eq_of (q : ℚ) (z : ℤ) (h₁ : (z : ℚ) ≤ q) (h₂ : q < z + 1) : ⌊q⌋ = z :=
  Int.floor_eq_iff.mpr ⟨h₁, h₂⟩

theorem pyround_eq_of_lt (q : ℚ) (z : ℤ) (hfl : ⌊q⌋ = z) (h : q - z < 1/2) :
    pyround q = z := by
  unfold pyround
  rw [hfl, if_pos h]

theorem pyround_eq_of_gt (q : ℚ) (z : ℤ) (hfl : ⌊q⌋ = z) (h : 1/2 < q - z) :
    pyround q = z + 1 := by
  unfold pyround
  rw [hfl, if_neg (by linarith), if_pos h]

theorem pyround_eq_of_half_even (q : ℚ) (z : ℤ) (hfl : ⌊q⌋ = z) (h : q - z = 1/2)
    (he : z % 2 = 0) : pyround q = z := by
  unfold pyround
  rw [hfl, if_neg (by linarith), if_neg (by linarith), if_pos he]

theorem pyround_eq_of_half_odd (q : ℚ) (z : ℤ) (hfl : ⌊q⌋ = z) (h : q - z = 1/2)
    (ho : ¬ z % 2 = 0) : pyround q = z + 1 := by
  unfold pyround
  rw [hfl, if_neg (by linarith), if_neg (by linarith), if_neg ho]

theorem pyround_nonneg (q : ℚ) (h : 0 ≤ q) : 0 ≤ pyround q := by
  have hf : 0 ≤ ⌊q⌋ := Int.floor_nonneg.mpr h
  unfold pyround
  split_ifs <;> omega

theorem pyround_zero : pyround 0 = 0 := by
  apply pyround_eq_of_lt 0 0 (by norm_num)
  norm_num

theorem number_of_clips_eq (pd L n : ℤ) (h₁ : (n : ℚ) - 1 < (pd : ℚ) / (L : ℚ))
    (h₂ : (pd : ℚ) / (L : ℚ) ≤ (n : ℚ)) : number_of_clips pd L = n := by
  unfold number_of_clips
  exact Int.ceil_eq_iff.mpr ⟨by linarith, h₂⟩

theorem number_of_clips_zero (L : ℤ) : number_of_clips 0 L = 0 := by
  unfold number_of_clips
  norm_num

theorem number_of_clips_nonneg (pd L : ℤ) (hpd : 0 ≤ pd) (hL : 1 ≤ L) :
    0 ≤ number_of_clips pd L := by
  apply Int.ceil_nonneg
  apply div_nonneg
  · exact_mod_cast hpd
  · have : (0 : ℤ) ≤ L := by omega
    exact_mod_cast this

theorem preview_duration_zero (f : ℚ) : preview_duration 0 f = 0 := by
  unfold preview_duration
  rw [zero_mul, pyround_zero]

theorem preview_duration_600 : preview_duration 600 (1/10) = 60 := by
  unfold preview_duration
  have h : (600 : ℚ) * (1/10) = 60 := by norm_num
  rw [h]
  exact pyround_eq_of_lt 60 60 (floor_eq_of 60 60 (by norm_num) (by norm_num)) (by norm_num)

theorem number_of_clips_60_10 : number_of_clips 60 10 = 6 :=
  number_of_clips_eq 60 10 6 (by norm_num) (by norm_num)

theorem preview_duration_37 : preview_duration 37 (1/2) = 18 := by
  unfold preview_duration
  exact pyround_eq_of_half_even (37 * (1/2)) 18
    (floor_eq_of _ 18 (by norm_num) (by norm_num)) (by norm_num) (by norm_num)

theorem number_of_clips_18_10 : number_of_clips 18 10 = 2 :=
  number_of_clips_eq 18 10 2 (by norm_num) (by norm_num)

theorem preview_duration_7 : preview_duration 7 (1/2) = 4 := by
  unfold preview_duration
  exact pyround_eq_of_half_odd (7 * (1/2)) 3
    (floor_eq_of _ 3 (by norm_num) (by norm_num)) (by norm_num) (by norm_num)

theorem number_of_clips_4_10 : number_of_clips 4 10 = 1 :=
  number_of_clips_eq 4 10 1 (by norm_num) (by norm_num)

theorem plan_37 : plan 37 (1/2) 10 = [⟨0, 0, 10⟩, ⟨1, 37/2, 10⟩] := by
  unfold plan
  rw [preview_duration_37, number_of_clips_18_10]
  have h2 : ((2 : ℤ).toNat) = 2 := rfl
  rw [h2]
  simp only [List.range_succ, List.range_zero, List.nil_append, List.map_append,
    List.map_cons, List.map_nil, List.singleton_append]
  unfold start_time
  norm_num

theorem plan_7 : plan 7 (1/2) 10 = [⟨0, 0, 10⟩] := by
  unfold plan
  rw [preview_duration_7, number_of_clips_4_10]
  have h1 : ((1 : ℤ).toNat) = 1 := rfl
  rw [h1]
  simp only [List.range_succ, List.range_zero, List.nil_append, List.map_cons, List.map_nil]
  unfold start_time
  norm_num

/-! ### Basic structure of `plan` -/

theorem plan_length_toNat (d f : ℚ) (L : ℤ) :
    (plan d f L).length = (number_of_clips (preview_duration d f) L).toNat := by
  unfold plan
  rw [List.length_map, List.length_range]

theorem plan_get (d f : ℚ) (L : ℤ) (i : ℕ) (hi : i < (plan d f L).length) :
    (plan d f L).get ⟨i, hi⟩
      = ⟨i, start_time d (number_of_clips (preview_duration d f) L) i, L⟩ := by
  unfold plan at hi ⊢
  simp only [List.get_eq_getElem, List.getElem_map, List.getElem_range]

/-! ### Claim theorems on the planner -/

/-- C1. For every `total_duration ≥ 0`, every integer `clip_length ∈ [1,60]`
and every `preview_fraction ∈ (0, 1/2]`, the plan has exactly
`ceil(round(total_duration * preview_fraction) / clip_length)` entries
(the count `number_of_clips (preview_duration d f) L` is precisely that
formula, with `round` the implementation's round-half-to-even); in
particular when `round(total_duration * preview_fraction) = 0` the plan is
empty. -/
theorem plan_length_eq (d f : ℚ) (L : ℤ) (hd : 0 ≤ d) (hL1 : 1 ≤ L) (_hL2 : L ≤ 60)
    (hf1 : 0 < f) (_hf2 : f ≤ 1/2) :
    ((plan d f L).length : ℤ) = number_of_clips (preview_duration d f) L
    ∧ (preview_duration d f = 0 → (plan d f L).length = 0) := by
  have hpd : 0 ≤ preview_duration d f :=
    pyround_nonneg _ (mul_nonneg hd hf1.le)
  have hn : 0 ≤ number_of_clips (preview_duration d f) L :=
    number_of_clips_nonneg _ _ hpd hL1
  constructor
  · rw [plan_length_toNat, Int.toNat_of_nonneg hn]
  · intro h0
    rw [plan_length_toNat, h0, number_of_clips_zero]
    rfl

/-- Witness for `plan_length_eq` at `total_duration = 600`,
`clip_length = 10`, `preview_fraction = 1/10`: the plan has
`ceil(round(60) / 10) = 6` entries. -/
theorem plan_length_eq_witness :
    ((0 : ℚ) ≤ 600 ∧ (1 : ℤ) ≤ 10 ∧ (10 : ℤ) ≤ 60 ∧ (0 : ℚ) < 1/10 ∧ (1/10 : ℚ) ≤ 1/2)
    ∧ (((plan 600 (1/10) 10).length : ℤ) = number_of_clips (preview_duration 600 (1/10)) 10
        ∧ (preview_duration 600 (1/10) = 0 → (plan 600 (1/10) 10).length = 0)) :=
  ⟨⟨by norm_num, by norm_num, by norm_num, by norm_num, by norm_num⟩,
    plan_length_eq 600 (1/10) 10 (by norm_num) (by norm_num) (by norm_num)
      (by norm_num) (by norm_num)⟩

/-- C2. For every plan with `number_of_clips ≥ 1` and `total_duration > 0`,
the start offset of clip `i` is `(total_duration / number_of_clips) * i`;
consequently every offset lies in `[0, total_duration)`, consecutive
offsets differ by exactly `total_duration / number_of_clips`, and the
offset sequence is non-decreasing (even spacing across the full source). -/
theorem plan_offsets (d f : ℚ) (L : ℤ) (hd : 0 < d)
    (hn : 1 ≤ number_of_clips (preview_duration d f) L) :
    ∀ i (hi : i < (plan d f L).length),
      ((plan d f L).get ⟨i, hi⟩).start_offset
          = d / (number_of_clips (preview_duration d f) L : ℚ) * (i : ℚ)
      ∧ 0 ≤ ((plan d f L).get ⟨i, hi⟩).start_offset
      ∧ ((plan d f L).get ⟨i, hi⟩).start_offset < d
      ∧ ∀ (hi' : i + 1 < (plan d f L).length),
          ((plan d f L).get ⟨i + 1, hi'⟩).start_offset
              - ((plan d f L).get ⟨i, hi⟩).start_offset
            = d / (number_of_clips (preview_duration d f) L : ℚ)
          ∧ ((plan d f L).get ⟨i, hi⟩).start_offset
            ≤ ((plan d f L).get ⟨i + 1, hi'⟩).start_offset := by
  intro i hi
  have hnQ : (1 : ℚ) ≤ (number_of_clips (preview_duration d f) L : ℚ) := by
    exact_mod_cast hn
  have hnpos : (0 : ℚ) < (number_of_clips (preview_duration d f) L : ℚ) := by linarith
  have hstep : 0 < d / (number_of_clips (preview_duration d f) L : ℚ) :=
    div_pos hd hnpos
  have hiQ : (i : ℚ) < (number_of_clips (preview_duration d f) L : ℚ) := by
    rw [plan_length_toNat] at hi
    have : (i : ℤ) < number_of_clips (preview_duration d f) L := Int.lt_toNat.mp hi
    exact_mod_cast this
  rw [plan_get]
  refine ⟨rfl, ?_, ?_, ?_⟩
  · unfold start_time
    positivity
  · unfold start_time
    calc d / (number_of_clips (preview_duration d f) L : ℚ) * (i : ℚ)
        < d / (number_of_clips (preview_duration d f) L : ℚ)
            * (number_of_clips (preview_duration d f) L : ℚ) :=
          (mul_lt_mul_left hstep).mpr hiQ
      _ = d := div_mul_cancel₀ d hnpos.ne'
  · intro hi'
    rw [plan_get]
    unfold start_time
    constructor
    · push_cast
      ring
    · have h0 : (0 : ℚ) ≤ d / (number_of_clips (preview_duration d f) L : ℚ) := hstep.le
      push_cast
      nlinarith

/-- Witness for `plan_offsets` at `total_duration = 600`, `clip_length = 10`,
`preview_fraction = 1/10` (6 clips, offsets 0, 100, ..., 500). -/
theorem plan_offsets_witness :
    ((0 : ℚ) < 600 ∧ 1 ≤ number_of_clips (preview_duration 600 (1/10)) 10)
    ∧ ∀ i (hi : i < (plan 600 (1/10) 10).length),
      ((plan 600 (1/10) 10).get ⟨i, hi⟩).start_offset
          = 600 / (number_of_clips (preview_duration 600 (1/10)) 10 : ℚ) * (i : ℚ)
      ∧ 0 ≤ ((plan 600 (1/10) 10).get ⟨i, hi⟩).start_offset
      ∧ ((plan 600 (1/10) 10).get ⟨i, hi⟩).start_offset < 600
      ∧ ∀ (hi' : i + 1 < (plan 600 (1/10) 10).length),
          ((plan 600 (1/10) 10).get ⟨i + 1, hi'⟩).start_offset
              - ((plan 600 (1/10) 10).get ⟨i, hi⟩).start_offset
            = 600 / (number_of_clips (preview_duration 600 (1/10)) 10 : ℚ)
          ∧ ((plan 600 (1/10) 10).get ⟨i, hi⟩).start_offset
            ≤ ((plan 600 (1/10) 10).get ⟨i + 1, hi'⟩).start_offset :=
  ⟨⟨by norm_num, by rw [preview_duration_600, number_of_clips_60_10]; norm_num⟩,
    plan_offsets 600 (1/10) 10 (by norm_num)
      (by rw [preview_duration_600, number_of_clips_60_10]; norm_num)⟩

/-- C6. Every entry of every plan is assigned `length_seconds` equal to the
requested `clip_length` — a fixed value for all clips, including the final
one: the planner never trims the trailing clip (no hypothesis excludes
plans whose last clip overruns the source end; the witness exhibits such an
overrunning plan). -/
theorem plan_entry_length (d f : ℚ) (L : ℤ) :
    ∀ entry ∈ plan d f L, entry.length_seconds = L := by
  intro entry hmem
  unfold plan at hmem
  obtain ⟨i, _, rfl⟩ := List.mem_map.mp hmem
  rfl

/-- Witness for `plan_entry_length`: at `total_duration = 7`,
`clip_length = 10`, `preview_fraction = 1/2` the single planned clip starts
at 0 and keeps `length_seconds = 10` even though `0 + 10 > 7` (overrun). -/
theorem plan_entry_length_witness :
    ((⟨0, 0, 10⟩ : ClipEntry) ∈ plan 7 (1/2) 10
        ∧ (0 : ℚ) + (10 : ℤ) > (7 : ℚ))
    ∧ (⟨0, 0, 10⟩ : ClipEntry).length_seconds = 10 :=
  ⟨⟨by rw [plan_7]; exact List.mem_singleton.mpr rfl, by norm_num⟩,
    plan_entry_length 7 (1/2) 10 ⟨0, 0, 10⟩ (by rw [plan_7]; exact List.mem_singleton.mpr rfl)⟩

/-- C8. Concrete scenario `total_duration = 37`, `clip_length = 10`,
`preview_fraction = 1/2`: the implementation's rounding rule is Python's
round-half-to-even, so `preview_duration = round(18.5) = 18`,
`number_of_clips = ceil(18 / 10) = 2`, and the start offsets are
`[0, 37/2]`, i.e. `[0, 18.5]`. -/
theorem concrete_scenario_37 :
    preview_duration 37 (1/2) = pyround ((37 : ℚ) * (1/2))
    ∧ pyround ((37 : ℚ) * (1/2)) = 18
    ∧ number_of_clips (preview_duration 37 (1/2)) 10 = 2
    ∧ plan 37 (1/2) 10 = [⟨0, 0, 10⟩, ⟨1, 37/2, 10⟩] := by
  refine ⟨rfl, ?_, ?_, plan_37⟩
  · have h := preview_duration_37
    unfold preview_duration at h
    exact h
  · rw [preview_duration_37]
    exact number_of_clips_18_10

/-- C9. The planner is deterministic and pure: it is modelled as a plain
function of exactly its three inputs (no state, time or randomness
parameter exists in the embedding), so two calls with identical
`total_duration`, `preview_fraction` and `clip_length` yield identical
plans — same entries, hence same length, same start offsets and same
clip lengths. -/
theorem plan_deterministic (d₁ f₁ : ℚ) (L₁ : ℤ) (d₂ f₂ : ℚ) (L₂ : ℤ)
    (hd : d₁ = d₂) (hf : f₁ = f₂) (hL : L₁ = L₂) :
    plan d₁ f₁ L₁ = plan d₂ f₂ L₂ := by
  rw [hd, hf, hL]

/-- Witness for `plan_deterministic` at the concrete input
`(600, 1/10, 10)`. -/
theorem plan_deterministic_witness :
    ((600 : ℚ) = 600 ∧ (1/10 : ℚ) = 1/10 ∧ (10 : ℤ) = 10)
    ∧ plan 600 (1/10) 10 = plan 600 (1/10) 10 :=
  ⟨⟨rfl, rfl, rfl⟩, plan_deterministic 600 (1/10) 10 600 (1/10) 10 rfl rfl rfl⟩

/-- C10. The duration probe truncates fractional seconds toward zero: for a
parsed `Duration: HH:MM:SS.fff` with non-negative fractional seconds,
`get_video_duration` returns `int(hours*3600 + minutes*60 + seconds)`,
which is the whole-second floor of the parsed duration, so the
`total_duration` fed to the planner is always a non-negative integer. -/
theorem get_video_duration_floor (hours minutes : ℕ) (seconds : ℚ) (hs : 0 ≤ seconds) :
    get_video_duration hours minutes seconds
        = ⌊(hours : ℚ) * 3600 + (minutes : ℚ) * 60 + seconds⌋
    ∧ 0 ≤ get_video_duration hours minutes seconds := by
  have hq : (0 : ℚ) ≤ (hours : ℚ) * 3600 + (minutes : ℚ) * 60 + seconds := by positivity
  unfold get_video_duration pytrunc
  rw [if_pos hq]
  exact ⟨rfl, Int.floor_nonneg.mpr hq⟩

/-- Witness for `get_video_duration_floor` at `Duration: 00:01:02.5`:
the probe reports `⌊62.5⌋ = 62` seconds. -/
theorem get_video_duration_floor_witness :
    ((0 : ℚ) ≤ 5/2)
    ∧ (get_video_duration 0 1 (5/2) = ⌊(0 : ℚ) * 3600 + (1 : ℚ) * 60 + 5/2⌋
        ∧ 0 ≤ get_video_duration 0 1 (5/2)) :=
  ⟨by norm_num, get_video_duration_floor 0 1 (5/2) (by norm_num)⟩

/-! ### Assembly pipeline

The ffmpeg subprocess calls of `create_preview_clips` (lines 224–242) and
`combine_clips` (lines 254–269) are modelled as collaborator functions
returning `Except`.  The pipeline additionally returns the trace of
collaborator calls it makes, in order, so that claims about which
collaborators are invoked are statable. -/

/-- One collaborator call made by the pipeline: either an extraction request
(the ffmpeg command of lines 224–235, determined by the clip index, the
`-ss` start offset and the `-t` length) or a concatenation request over an
ordered list of extracted clips (lines 246–269). -/
inductive Event (α : Type) where
  | extractCall (index : ℕ) (start : ℚ) (length : ℤ)
  | concatCall (clips : List α)
deriving DecidableEq

/-- Typed failure of the whole assembly, mirroring the two `RuntimeError`
raises at lines 242 and 269: an extraction failure carries the failing clip
index and the underlying cause; a concatenation failure carries its cause. -/
inductive AssembleError (ε ε' : Type) where
  | clipExtractionFailed (index : ℕ) (cause : ε)
  | concatenationFailed (cause : ε')
deriving DecidableEq

/-- The extraction loop of `create_preview_clips` (lines 220–242) over a list
of clip indices: for each index `i`, call the extraction collaborator with
start offset `(duration / n) * i` and the fixed clip length; on the first
failure stop immediately, reporting the failing index and cause (the
`raise RuntimeError(f"Failed to extract clip {i}: {e}")` at line 242);
otherwise collect the extracted clips in order.  The first component is the
trace of collaborator calls made. -/
def extractFrom (extract : ℕ → ℚ → ℤ → Except ε α) (duration : ℚ) (n : ℤ)
    (clip_length : ℤ) : List ℕ → List (Event α) × Except (ℕ × ε) (List α)
  | [] => ([], Except.ok [])
  | i :: rest =>
    match extract i (start_time duration n i) clip_length with
    | Except.error e =>
        ([Event.extractCall i (start_time duration n i) clip_length], Except.error (i, e))
    | Except.ok c =>
        let r := extractFrom extract duration n clip_length rest
        (Event.extractCall i (start_time duration n i) clip_length :: r.1,
          match r.2 with
          | Except.error fail => Except.error fail
          | Except.ok cs => Except.ok (c :: cs))

/-- The function `create_preview_clips` (lines 213–244): compute
`number_of_clips = ceil(preview_duration / clip_length)` and run the
extraction loop over `range(number_of_clips)`. -/
def create_preview_clips (extract : ℕ → ℚ → ℤ → Except ε α) (duration : ℚ)
    (pd clip_length : ℤ) : List (Event α) × Except (ℕ × ε) (List α) :=
  extractFrom extract duration (number_of_clips pd clip_length) clip_length
    (List.range (number_of_clips pd clip_length).toNat)

/-- The assembly pipeline of `main` (lines 316–324): run
`create_preview_clips`; if it raised, propagate the extraction failure
(lines 331–333 print it and exit) and make no further collaborator call;
otherwise hand the ordered clip list to the concatenation collaborator
(`create_concat_file` followed by `combine_clips` — this happens
unconditionally, even when the clip list is empty) and propagate its
result. -/
def assemble (extract : ℕ → ℚ → ℤ → Except ε α) (concat : List α → Except ε' β)
    (duration : ℚ) (pd clip_length : ℤ) :
    List (Event α) × Except (AssembleError ε ε') β :=
  match (create_preview_clips extract duration pd clip_length).2 with
  | Except.error fail =>
      ((create_preview_clips extract duration pd clip_length).1,
        Except.error (AssembleError.clipExtractionFailed fail.1 fail.2))
  | Except.ok clips =>
      ((create_preview_clips extract duration pd clip_length).1
          ++ [Event.concatCall clips],
        match concat clips with
        | Except.error e => Except.error (AssembleError.concatenationFailed e)
        | Except.ok art => Except.ok art)

/-- Errors surfaced by `main`: a rejected parameter (modelling the prompt
loops of lines 173–211, which never let an out-of-range value reach the
planner), or a propagated assembly failure. -/
inductive MainError (ε ε' : Type) where
  | invalidParameter
  | clipExtractionFailed (index : ℕ) (cause : ε)
  | concatenationFailed (cause : ε')
deriving DecidableEq

/-- The run of `main` (lines 282–334) after the source duration is known:
`clip_length` and `percentage` pass through their validation loops before
any extraction work; an accepted percentage becomes the fraction
`percentage / 100`, `preview_duration` is computed (line 303), and the
assembly pipeline runs.  A rejected parameter means the pipeline is never
reached, so no collaborator call is made. -/
def runMain (extract : ℕ → ℚ → ℤ → Except ε α) (concat : List α → Except ε' β)
    (duration : ℚ) (clip_length : ℤ) (percentage : ℚ) :
    List (Event α) × Except (MainError ε ε') β :=
  if clip_length_ok clip_length && percentage_ok percentage then
    ((assemble extract concat duration
          (preview_duration duration (percentage / 100)) clip_length).1,
      (assemble extract concat duration
          (preview_duration duration (percentage / 100)) clip_length).2.mapError
        (fun a =>
          match a with
          | AssembleError.clipExtractionFailed i e => MainError.clipExtractionFailed i e
          | AssembleError.concatenationFailed e => MainError.concatenationFailed e))
  else ([], Except.error MainError.invalidParameter)

/-! ### Lemmas on the extraction loop -/

theorem extractFrom_no_concat (extract : ℕ → ℚ → ℤ → Except ε α) (duration : ℚ)
    (n clip_length : ℤ) (l : List ℕ) (cs : List α) :
    Event.concatCall cs ∉ (extractFrom extract duration n clip_length l).1 := by
  induction l with
  | nil => simp [extractFrom]
  | cons i rest ih =>
    unfold extractFrom
    cases h : extract i (start_time duration n i) clip_length with
    | error e => simp
    | ok c => simpa using ih

theorem extractFrom_all_ok (extract : ℕ → ℚ → ℤ → Except ε α) (duration : ℚ)
    (n clip_length : ℤ) (clip : ℕ → α) (l : List ℕ)
    (h : ∀ i ∈ l, extract i (start_time duration n i) clip_length = Except.ok (clip i)) :
    extractFrom extract duration n clip_length l
      = (l.map (fun i => Event.extractCall i (start_time duration n i) clip_length),
          Except.ok (l.map clip)) := by
  induction l with
  | nil => simp [extractFrom]
  | cons i rest ih =>
    have hi := h i (List.mem_cons_self i rest)
    have hrest := ih (fun j hj => h j (List.mem_cons_of_mem i hj))
    unfold extractFrom
    rw [hi, hrest]
    simp

theorem extractFrom_first_fail (extract : ℕ → ℚ → ℤ → Except ε α) (duration : ℚ)
    (n clip_length : ℤ) (l₁ l₂ : List ℕ) (k : ℕ) (e : ε)
    (hok : ∀ i ∈ l₁, ∃ c, extract i (start_time duration n i) clip_length = Except.ok c)
    (hfail : extract k (start_time duration n k) clip_length = Except.error e) :
    (extractFrom extract duration n clip_length (l₁ ++ k :: l₂)).2
      = Except.error (k, e) := by
  induction l₁ with
  | nil =>
    rw [List.nil_append]
    unfold extractFrom
    rw [hfail]
  | cons i rest ih =>
    obtain ⟨c, hc⟩ := hok i (List.mem_cons_self i rest)
    have hrest := ih (fun j hj => hok j (List.mem_cons_of_mem i hj))
    rw [List.cons_append]
    unfold extractFrom
    rw [hc]
    simp only []
    rw [hrest]

theorem range_split (k m : ℕ) (h : k < m) :
    ∃ l₂, List.range m = List.range k ++ k :: l₂ := by
  obtain ⟨r, rfl⟩ : ∃ r, m = k + (r + 1) := ⟨m - k - 1, by omega⟩
  refine ⟨(List.range r).map ((fun x => k + x) ∘ Nat.succ), ?_⟩
  rw [List.range_add, List.range_succ_eq_map]
  simp only [List.map_cons, Nat.add_zero, List.map_map]

/-! ### Claim theorems on the assembly pipeline -/

/-- C3. If the extraction collaborator fails on the clip at index `k` — the
first failing index: all earlier indices succeed — then the whole assembly
aborts with a `clipExtractionFailed` error carrying index `k` and the
underlying cause, the concatenate collaborator is never invoked, and no
artifact is delivered (the result is the error, not an `ok`). -/
theorem assemble_aborts_on_first_failure (extract : ℕ → ℚ → ℤ → Except ε α)
    (concat : List α → Except ε' β) (d : ℚ) (pd L : ℤ) (k : ℕ) (e : ε)
    (hk : k < (number_of_clips pd L).toNat)
    (hfail : extract k (start_time d (number_of_clips pd L) k) L = Except.error e)
    (hbefore : ∀ i, i < k →
        ∃ c, extract i (start_time d (number_of_clips pd L) i) L = Except.ok c) :
    (assemble extract concat d pd L).2
        = Except.error (AssembleError.clipExtractionFailed k e)
    ∧ ∀ cs, Event.concatCall cs ∉ (assemble extract concat d pd L).1 := by
  obtain ⟨l₂, hsplit⟩ := range_split k _ hk
  have hext : (create_preview_clips extract d pd L).2 = Except.error (k, e) := by
    unfold create_preview_clips
    rw [hsplit]
    exact extractFrom_first_fail extract d (number_of_clips pd L) L (List.range k) l₂ k e
      (fun i hi => hbefore i (List.mem_range.mp hi)) hfail
  constructor
  · unfold assemble
    rw [hext]
  · intro cs
    unfold assemble
    rw [hext]
    simp only []
    unfold create_preview_clips
    exact extractFrom_no_concat extract d (number_of_clips pd L) L _ cs

/-- Witness for `assemble_aborts_on_first_failure`: six planned clips,
the collaborator fails exactly at index 2; assembly reports index 2 and
concatenation never happens. -/
theorem assemble_aborts_on_first_failure_witness :
    ((2 < (number_of_clips 60 10).toNat)
      ∧ (fun (i : ℕ) (_ : ℚ) (_ : ℤ) =>
            if i = 2 then (Except.error 0 : Except ℕ ℕ) else Except.ok i) 2
          (start_time 600 (number_of_clips 60 10) 2) 10 = Except.error 0
      ∧ ∀ i, i < 2 →
          ∃ c, (fun (i : ℕ) (_ : ℚ) (_ : ℤ) =>
              if i = 2 then (Except.error 0 : Except ℕ ℕ) else Except.ok i) i
            (start_time 600 (number_of_clips 60 10) i) 10 = Except.ok c)
    ∧ ((assemble
          (fun (i : ℕ) (_ : ℚ) (_ : ℤ) =>
            if i = 2 then (Except.error 0 : Except ℕ ℕ) else Except.ok i)
          (fun cs => (Except.ok cs : Except Unit (List ℕ))) 600 60 10).2
        = Except.error (AssembleError.clipExtractionFailed 2 0)
      ∧ ∀ cs, Event.concatCall cs ∉ (assemble
          (fun (i : ℕ) (_ : ℚ) (_ : ℤ) =>
            if i = 2 then (Except.error 0 : Except ℕ ℕ) else Except.ok i)
          (fun cs => (Except.ok cs : Except Unit (List ℕ))) 600 60 10).1) :=
  ⟨⟨by rw [number_of_clips_60_10]; norm_num, rfl,
      fun i hi => ⟨i, by
        show (if i = 2 then (Except.error 0 : Except ℕ ℕ) else Except.ok i) = Except.ok i
        rw [if_neg (by omega)]⟩⟩,
    assemble_aborts_on_first_failure _ _ 600 60 10 2 0
      (by rw [number_of_clips_60_10]; norm_num) rfl
      (fun i hi => ⟨i, by
        show (if i = 2 then (Except.error 0 : Except ℕ ℕ) else Except.ok i) = Except.ok i
        rw [if_neg (by omega)]⟩)⟩

/-- C4 counterexample. The claim says that with `total_duration = 0` (hence
`number_of_clips = 0`) no concatenate call is made; but `main`
unconditionally calls `create_concat_file` and `combine_clips` after the
(empty) extraction loop, so the concatenate collaborator IS invoked, with
the empty clip sequence: the call trace at `total_duration = 0` is exactly
`[concatCall []]`. -/
theorem assemble_zero_duration_calls_concat :
    (assemble (fun (_ : ℕ) (_ : ℚ) (_ : ℤ) => (Except.ok 0 : Except Unit ℕ))
        (fun cs => (Except.ok cs : Except Unit (List ℕ)))
        0 (preview_duration 0 (1/2)) 10).1
      = [Event.concatCall []] := by
  rw [preview_duration_zero]
  have h : create_preview_clips
      (fun (_ : ℕ) (_ : ℚ) (_ : ℤ) => (Except.ok 0 : Except Unit ℕ)) 0 0 10
      = ([], Except.ok []) := by
    unfold create_preview_clips
    rw [number_of_clips_zero]
    rfl
  unfold assemble
  rw [h]
  rfl

/-- C4 as amended. When `total_duration = 0` the preview duration rounds to
0 and `number_of_clips = 0`, so no `extract_clip` call is made; but the
pipeline does not stop there: the concatenate collaborator is still invoked
once, on the empty clip sequence — the whole call trace is exactly
`[concatCall []]` for every choice of collaborators and clip length. -/
theorem assemble_empty_plan (extract : ℕ → ℚ → ℤ → Except ε α)
    (concat : List α → Except ε' β) (f : ℚ) (L : ℤ) :
    (assemble extract concat 0 (preview_duration 0 f) L).1
      = [Event.concatCall []] := by
  rw [preview_duration_zero]
  have h : create_preview_clips extract 0 0 L = ([], Except.ok []) := by
    unfold create_preview_clips
    rw [number_of_clips_zero]
    rfl
  unfold assemble
  rw [h]
  rfl

/-- C5. Parameter validation rejects every `clip_length` outside `[1, 60]`
and every preview fraction `percentage / 100` outside `[1/100, 1/2]` before
any collaborator call is made: the run ends with `invalidParameter` and an
empty call trace (no extraction work).  At the boundary, a percentage of 50
(fraction `0.50`) is accepted and a percentage of 51 (fraction `0.51`) is
rejected. -/
theorem invalid_params_rejected (extract : ℕ → ℚ → ℤ → Except ε α)
    (concat : List α → Except ε' β) (d : ℚ) (L : ℤ) (p : ℚ)
    (h : ¬ (1 ≤ L ∧ L ≤ 60) ∨ ¬ ((1 : ℚ)/100 ≤ p / 100 ∧ p / 100 ≤ 1/2)) :
    runMain extract concat d L p = ([], Except.error MainError.invalidParameter)
    ∧ percentage_ok 50 = true ∧ percentage_ok 51 = false := by
  have hcond : (clip_length_ok L && percentage_ok p) = false := by
    rcases h with h | h
    · have hL : clip_length_ok L = false := by
        simp only [clip_length_ok, Bool.and_eq_false_iff, decide_eq_false_iff_not]
        omega
      rw [hL, Bool.false_and]
    · have hp : percentage_ok p = false := by
        simp only [percentage_ok, Bool.and_eq_false_iff, decide_eq_false_iff_not]
        by_contra hcontra
        push_neg at hcontra
        exact h ⟨by linarith [hcontra.1], by linarith [hcontra.2]⟩
      rw [hp, Bool.and_false]
  refine ⟨?_, ?_, ?_⟩
  · unfold runMain
    rw [hcond]
    rfl
  · simp only [percentage_ok, Bool.and_eq_true, decide_eq_true_eq]
    norm_num
  · simp only [percentage_ok, Bool.and_eq_false_iff, decide_eq_false_iff_not]
    norm_num

/-- Witness for `invalid_params_rejected`: `clip_length = 0` is out of
range, so the run rejects it with an empty call trace. -/
theorem invalid_params_rejected_witness :
    (¬ ((1 : ℤ) ≤ 0 ∧ (0 : ℤ) ≤ 60) ∨ ¬ ((1 : ℚ)/100 ≤ 50 / 100 ∧ (50 : ℚ) / 100 ≤ 1/2))
    ∧ (runMain (fun (_ : ℕ) (_ : ℚ) (_ : ℤ) => (Except.ok 0 : Except Unit ℕ))
          (fun cs => (Except.ok cs : Except Unit (List ℕ))) 0 0 50
        = ([], Except.error MainError.invalidParameter)
      ∧ percentage_ok 50 = true ∧ percentage_ok 51 = false) :=
  ⟨Or.inl (by norm_num),
    invalid_params_rejected _ _ 0 0 50 (Or.inl (by norm_num))⟩

/-- C7. When every extraction succeeds, the clips are requested one at a
time in ascending index order (the call trace lists the extraction calls
for indices `0, 1, …, number_of_clips - 1` in that order, followed by the
single concatenation call), the concatenate collaborator receives the
clip results in exactly plan order, and the final artifact is its result
on that ordered sequence. -/
theorem assemble_ordered_concat (extract : ℕ → ℚ → ℤ → Except ε α)
    (concat : List α → Except ε' β) (d : ℚ) (pd L : ℤ) (clip : ℕ → α)
    (hok : ∀ i, i < (number_of_clips pd L).toNat →
        extract i (start_time d (number_of_clips pd L) i) L = Except.ok (clip i)) :
    (assemble extract concat d pd L).1
        = (List.range (number_of_clips pd L).toNat).map
            (fun i => Event.extractCall i (start_time d (number_of_clips pd L) i) L)
          ++ [Event.concatCall ((List.range (number_of_clips pd L).toNat).map clip)]
    ∧ ∀ b, concat ((List.range (number_of_clips pd L).toNat).map clip) = Except.ok b →
        (assemble extract concat d pd L).2 = Except.ok b := by
  have hext : create_preview_clips extract d pd L
      = ((List.range (number_of_clips pd L).toNat).map
            (fun i => Event.extractCall i (start_time d (number_of_clips pd L) i) L),
          Except.ok ((List.range (number_of_clips pd L).toNat).map clip)) := by
    unfold create_preview_clips
    exact extractFrom_all_ok extract d (number_of_clips pd L) L clip _
      (fun i hi => hok i (List.mem_range.mp hi))
  constructor
  · unfold assemble
    rw [hext]
  · intro b hb
    unfold assemble
    rw [hext]
    simp only []
    rw [hb]

/-- Witness for `assemble_ordered_concat`: six always-succeeding clips; the
trace is the six extraction calls in index order followed by one
concatenation call over `[0, 1, 2, 3, 4, 5]`, and the artifact is that
ordered list. -/
theorem assemble_ordered_concat_witness :
    (∀ i, i < (number_of_clips 60 10).toNat →
        (fun (i : ℕ) (_ : ℚ) (_ : ℤ) => (Except.ok i : Except Unit ℕ)) i
          (start_time 600 (number_of_clips 60 10) i) 10 = Except.ok i)
    ∧ ((assemble (fun (i : ℕ) (_ : ℚ) (_ : ℤ) => (Except.ok i : Except Unit ℕ))
            (fun cs => (Except.ok cs : Except Unit (List ℕ))) 600 60 10).1
          = (List.range (number_of_clips 60 10).toNat).map
              (fun i => Event.extractCall i (start_time 600 (number_of_clips 60 10) i) 10)
            ++ [Event.concatCall ((List.range (number_of_clips 60 10).toNat).map (fun i => i))]
      ∧ ∀ b, (fun cs => (Except.ok cs : Except Unit (List ℕ)))
            ((List.range (number_of_clips 60 10).toNat).map (fun i => i)) = Except.ok b →
          (assemble (fun (i : ℕ) (_ : ℚ) (_ : ℤ) => (Except.ok i : Except Unit ℕ))
              (fun cs => (Except.ok cs : Except Unit (List ℕ))) 600 60 10).2 = Except.ok b) :=
  ⟨fun _ _ => rfl,
    assemble_ordered_concat _ _ 600 60 10 (fun i => i) (fun _ _ => rfl)⟩

end CreatePreview
